import Mathlib

/-!
Shallow embedding of the `name` VS Code extension's pipeline-orchestration
core (repository `cameron-b63/name`, directory `name-ext/src`):

* `getBinName` — `helpers/getbin.ts`, the platform/architecture binary-name
  resolver;
* `runAssembler` — `commands/assemble.ts`, spawns `name-as`;
* `runLinker` — `commands/link.ts`, spawns `name-ld`;
* `runWithoutDebugging` — `commands/emulate.ts`, launches `name-emu` in a
  terminal;
* `assembleRunNoDebug` — the command body registered by
  `commands/assemble_run_no_debug.ts` (the chained assemble–link–run
  pipeline);
* `linkCurrentFile` / `assembleCurrentFile` / `runNoDebugCommand` — the
  standalone single-stage command bodies.

Node's `process.platform` and `process.arch` are passed explicitly as
strings.  The host environment (filesystem, directory listings, the child
processes' observable behaviour) is passed in explicitly; each operation
returns its settled promise value together with an ordered trace of the
side effects it performs (existence checks, spawns, output-channel and
terminal operations, promise settlement).
-/

namespace NameExt

/-- Observable behaviour of one spawned child process: the payloads of the
`data` events delivered on its stderr and stdout streams (in order; Node
delivers only non-empty chunks), and the exit code passed to the `close`
handler. -/
structure ChildProcess where
  stderrData : List String
  stdoutData : List String
  exitCode : Int
deriving Repr, DecidableEq

/-- Settled state of the promise returned by an invoker: `resolved` with the
success message, or `rejected` with the error message. -/
inductive Outcome where
  | resolved (msg : String)
  | rejected (err : String)
deriving Repr, DecidableEq

/-- Which component an observable side effect belongs to. -/
inductive Stage where
  | assembler
  | linker
  | runtime
  | coordinator
deriving Repr, DecidableEq

/-- Ordered observable side effects of a run: filesystem existence checks,
process spawns, output-channel operations, terminal operations, promise
settlement, and the coordinator-level user notifications. -/
inductive Event where
  | existsCheck (stage : Stage) (path : String)
  | spawn (stage : Stage) (bin : String) (argv : List String)
  | childClose (stage : Stage) (exitCode : Int)
  | channelClear (stage : Stage)
  | channelAppend (stage : Stage) (text : String)
  | channelShow (stage : Stage)
  | terminalSend (stage : Stage) (text : String)
  | terminalShow (stage : Stage)
  | settleResolve (stage : Stage) (msg : String)
  | settleReject (stage : Stage) (err : String)
  | showInfoMessage (stage : Stage) (msg : String)
  | showErrorMessage (stage : Stage) (msg : String)
deriving Repr, DecidableEq

/-- Stage tag carried by an event. -/
def Event.stage : Event → Stage
  | .existsCheck s _ => s
  | .spawn s _ _ => s
  | .childClose s _ => s
  | .channelClear s => s
  | .channelAppend s _ => s
  | .channelShow s => s
  | .terminalSend s _ => s
  | .terminalShow s => s
  | .settleResolve s _ => s
  | .settleReject s _ => s
  | .showInfoMessage s _ => s
  | .showErrorMessage s _ => s

namespace NodePath

/-- Index of the last occurrence of `c`, if any. -/
def lastIdx (c : Char) : List Char → Option Nat
  | [] => none
  | x :: xs =>
    match lastIdx c xs with
    | some i => some (i + 1)
    | none => if x = c then some 0 else none

/-- Node `path.join(dir, base)`, modelled for an already-normalised,
non-empty `dir` without a trailing separator — the only shape the embedded
code produces. -/
def join (dir base : String) : String :=
  if dir = "" then base else dir ++ "/" ++ base

/-- Split a posix path into `(dir, base)` as Node `path.parse` does:
`dir` is everything before the last separator (`""` when there is none,
`"/"` when the last separator is the leading root slash). -/
def splitDirBase (p : String) : String × String :=
  match lastIdx '/' p.data with
  | none => ("", p)
  | some 0 => ("/", String.mk (p.data.drop 1))
  | some i => (String.mk (p.data.take i), String.mk (p.data.drop (i + 1)))

/-- Node `path.parse(base).name`: the basename with its extension removed.
A dot at position 0 (hidden file) or a missing dot yields no extension. -/
def stripExtBase (b : String) : String :=
  match lastIdx '.' b.data with
  | none => b
  | some 0 => b
  | some i => String.mk (b.data.take i)

/-- Node `path.format({dir, name, ext})` for posix paths. -/
def formatPath (dir name ext : String) : String :=
  if dir = "" then name ++ ext
  else if dir = "/" then "/" ++ name ++ ext
  else dir ++ "/" ++ name ++ ext

/-- The idiom `path.format({ ...path.parse(p), base: undefined, ext })`
used throughout the commands: replace the extension of `p` by `ext`. -/
def replaceExt (p ext : String) : String :=
  let db := splitDirBase p
  formatPath db.fst (stripExtBase db.snd) ext

/-- Node `path.dirname`. -/
def dirname (p : String) : String :=
  match lastIdx '/' p.data with
  | none => "."
  | some 0 => "/"
  | some i => String.mk (p.data.take i)

end NodePath

/-- JavaScript `s.endsWith(suffix)`, as a suffix check on the character
sequences (the file names involved are ASCII). -/
def strEndsWith (s suffix : String) : Bool :=
  List.isSuffixOf suffix.data s.data

/-- Embedding of `getBinName` (`helpers/getbin.ts`): name of the platform-
and architecture-specific binary for logical tool name `nomenclature`.
The `default` branch of the `switch` throws `Error('Unknown platform')`,
modelled as `Except.error`. -/
def getBinName (platform arch : String) (nomenclature : String) :
    Except String String :=
  if platform = "win32" then
    .ok (nomenclature ++ ".exe")
  else if platform = "darwin" then
    let binName := if arch = "x64" then nomenclature ++ "_x86_64"
                   else nomenclature ++ "_arm64"
    .ok (binName ++ ".app")
  else if platform = "linux" then
    .ok (nomenclature ++ ".bin")
  else
    .error "Unknown platform"

/-- Truth of an `Except` being the `error` case. -/
def isErr : Except String String → Bool
  | .error _ => true
  | .ok _ => false

/-- Embedding of `runAssembler` (`commands/assemble.ts`).  The filesystem is
the list `fs` of existing paths; `proc` is the behaviour the spawned
`name-as` child would exhibit.  Returns the settled promise value and the
ordered trace of side effects.  Faithful details: the binary name goes
through `getBinName`; a missing binary rejects before any spawn; `hasErrors`
is set exactly when a stderr `data` event fired; the exit code passed to
`close` is ignored; on failure the output channel is shown unconditionally,
on success it is shown only when `chained` is false. -/
def runAssembler (fs : List String) (proc : ChildProcess)
    (name_bin_dir infile outfile : String) (chained : Bool)
    (platform arch : String) : Outcome × List Event :=
  match getBinName platform arch "name-as" with
  | .error e => (.rejected e, [])
  | .ok binName =>
    let assemblerPath := NodePath.join name_bin_dir binName
    if !(fs.contains assemblerPath) then
      (.rejected ("Assembler not found at path: " ++ assemblerPath),
       [.existsCheck .assembler assemblerPath,
        .settleReject .assembler
          ("Assembler not found at path: " ++ assemblerPath)])
    else
      let hasErrors := !proc.stderrData.isEmpty
      let errorBuffer := String.join proc.stderrData
      if hasErrors then
        (.rejected "Assembly failed. Check output for details.",
         [.existsCheck .assembler assemblerPath,
          .spawn .assembler assemblerPath [infile, outfile],
          .childClose .assembler proc.exitCode,
          .channelClear .assembler,
          .channelAppend .assembler errorBuffer,
          .channelShow .assembler,
          .settleReject .assembler "Assembly failed. Check output for details."])
      else
        (.resolved "Assembly was successful.",
         [.existsCheck .assembler assemblerPath,
          .spawn .assembler assemblerPath [infile, outfile],
          .childClose .assembler proc.exitCode,
          .channelClear .assembler,
          .channelAppend .assembler "File assembled successfully."]
         ++ (if chained then [] else [.channelShow .assembler])
         ++ [.settleResolve .assembler "Assembly was successful."])

/-- Embedding of `runLinker` (`commands/link.ts`).  Faithful details: the
binary path is `path.join(name_bin_dir, 'name-ld')` — the resolver
`getBinName` is not applied; argv is `['--output-filename', outfile,
...infiles]`; the exit code is ignored; on failure the channel is shown only
when `chained` is false, on success it is shown unconditionally. -/
def runLinker (fs : List String) (proc : ChildProcess)
    (name_bin_dir : String) (infiles : List String) (outfile : String)
    (chained : Bool) : Outcome × List Event :=
  let linkerPath := NodePath.join name_bin_dir "name-ld"
  if !(fs.contains linkerPath) then
    (.rejected ("Linker not found at path: " ++ linkerPath),
     [.existsCheck .linker linkerPath,
      .settleReject .linker ("Linker not found at path: " ++ linkerPath)])
  else
    let hasErrors := !proc.stderrData.isEmpty
    let errorBuffer := String.join proc.stderrData
    if hasErrors then
      (.rejected "Linking failed. Check output for details.",
       [.existsCheck .linker linkerPath,
        .spawn .linker linkerPath (["--output-filename", outfile] ++ infiles),
        .childClose .linker proc.exitCode,
        .channelClear .linker,
        .channelAppend .linker errorBuffer]
       ++ (if chained then [] else [.channelShow .linker])
       ++ [.settleReject .linker "Linking failed. Check output for details."])
    else
      (.resolved "Linking was successful.",
       [.existsCheck .linker linkerPath,
        .spawn .linker linkerPath (["--output-filename", outfile] ++ infiles),
        .childClose .linker proc.exitCode,
        .channelClear .linker,
        .channelAppend .linker "Files linked successfully.",
        .channelShow .linker,
        .settleResolve .linker "Linking was successful."])

/-- Embedding of `runWithoutDebugging` (`commands/emulate.ts`).  The binary
name goes through `getBinName`; after the existence check the command text
is sent to a fresh terminal, the terminal is shown, and the promise resolves
immediately — no child process is spawned through `child_process`, no exit
is awaited, and no output is captured. -/
def runWithoutDebugging (fs : List String) (name_bin_dir infile : String)
    (platform arch : String) : Outcome × List Event :=
  match getBinName platform arch "name-emu" with
  | .error e => (.rejected e, [])
  | .ok binName =>
    let runnerPath := NodePath.join name_bin_dir binName
    if !(fs.contains runnerPath) then
      (.rejected ("Runner not found at path: " ++ runnerPath),
       [.existsCheck .runtime runnerPath,
        .settleReject .runtime ("Runner not found at path: " ++ runnerPath)])
    else
      (.resolved "Runner launched in terminal.",
       [.existsCheck .runtime runnerPath,
        .terminalSend .runtime (runnerPath ++ " \"" ++ infile ++ "\""),
        .terminalShow .runtime,
        .settleResolve .runtime "Runner launched in terminal."])

/-- File kinds returned by `vscode.workspace.fs.readDirectory`. -/
inductive FileType where
  | unknown
  | file
  | directory
  | symbolicLink
deriving Repr, DecidableEq

/-- Host environment of one chained pipeline run: the filesystem paths that
exist, the entries `fs.readdirSync` returns for the source file's directory,
the behaviours of the assembler and linker children if spawned, and the host
platform/architecture. -/
structure PipelineEnv where
  fs : List String
  dirListing : List String
  asmProc : ChildProcess
  ldProc : ChildProcess
  platform : String
  arch : String

/-- Embedding of the command body registered by
`registerAssembleRunNoDebug` (`commands/assemble_run_no_debug.ts`): with
`chained = true`, assemble, then on success discover `.o` files in the
source directory and link, then on success run — each later stage invoked
only inside the previous stage's resolution handler.  Faithful detail: the
linker output file is derived with `ext: '.o'` (the same expression as the
assembler output), and that same `.o` path is what `runWithoutDebugging`
receives. -/
def assembleRunNoDebug (env : PipelineEnv)
    (name_bin_directory currently_open_file : String) : List Event :=
  let chained := true
  let assembler_output_file := NodePath.replaceExt currently_open_file ".o"
  let r1 := runAssembler env.fs env.asmProc name_bin_directory
      currently_open_file assembler_output_file chained env.platform env.arch
  match r1 with
  | (.rejected e, t1) => t1 ++ [.showErrorMessage .coordinator e]
  | (.resolved _, t1) =>
    let linker_output_file := NodePath.replaceExt currently_open_file ".o"
    let current_dir := NodePath.dirname currently_open_file
    let infiles := (env.dirListing.filter (fun f => strEndsWith f ".o")).map
        (fun f => NodePath.join current_dir f)
    let r2 := runLinker env.fs env.ldProc name_bin_directory infiles
        linker_output_file chained
    match r2 with
    | (.rejected e, t2) => t1 ++ t2 ++ [.showErrorMessage .coordinator e]
    | (.resolved _, t2) =>
      let r3 := runWithoutDebugging env.fs name_bin_directory
          linker_output_file env.platform env.arch
      match r3 with
      | (.rejected e, t3) =>
        t1 ++ t2 ++ t3 ++ [.showErrorMessage .coordinator e]
      | (.resolved m, t3) =>
        t1 ++ t2 ++ t3 ++ [.showInfoMessage .coordinator m]

/-- Embedding of the standalone assemble command body registered by
`registerAssemble` (`commands/assemble.ts`): `chained = false`, output file
is the input with its extension replaced by `.o`. -/
def assembleCurrentFile (fs : List String) (proc : ChildProcess)
    (name_bin_directory currently_open_file : String)
    (platform arch : String) : List Event :=
  let chained := false
  let output_file := NodePath.replaceExt currently_open_file ".o"
  match runAssembler fs proc name_bin_directory currently_open_file
      output_file chained platform arch with
  | (.resolved m, t) => t ++ [.showInfoMessage .coordinator m]
  | (.rejected e, t) => t ++ [.showErrorMessage .coordinator e]

/-- Embedding of the standalone link command body registered by
`registerLink` (`commands/link.ts`): `chained = false`; discovery keeps the
directory entries of kind `File` whose name ends in `.o`; the output file is
the input with its extension stripped (`ext: ''`). -/
def linkCurrentFile (fs : List String)
    (dirEntries : List (String × FileType)) (proc : ChildProcess)
    (name_bin_directory currently_open_file : String) : List Event :=
  let chained := false
  let current_dir := NodePath.dirname currently_open_file
  let infiles := (dirEntries.filter
      (fun e => e.snd == FileType.file && strEndsWith e.fst ".o")).map
      (fun e => NodePath.join current_dir e.fst)
  let output_file := NodePath.replaceExt currently_open_file ""
  match runLinker fs proc name_bin_directory infiles output_file chained with
  | (.resolved m, t) => t ++ [.showInfoMessage .coordinator m]
  | (.rejected e, t) => t ++ [.showErrorMessage .coordinator e]

/-- Embedding of the standalone run command body registered by
`registerRunNoDebug` (`commands/emulate.ts`): the file to run is the input
with its extension stripped. -/
def runNoDebugCommand (fs : List String)
    (name_bin_directory currently_open_file : String)
    (platform arch : String) : List Event :=
  let file_to_run := NodePath.replaceExt currently_open_file ""
  match runWithoutDebugging fs name_bin_directory file_to_run
      platform arch with
  | (.resolved m, t) => t ++ [.showInfoMessage .coordinator m]
  | (.rejected e, t) => t ++ [.showErrorMessage .coordinator e]

/-- Rank of a stage in the pipeline's intended order; the coordinator's own
notifications come after the stage they report on. -/
def stageRank : Stage → Nat
  | .assembler => 1
  | .linker => 2
  | .runtime => 3
  | .coordinator => 4

/-- Truth of an event being a process launch: a `child_process.spawn` call,
or the terminal `sendText` that starts the runtime. -/
def Event.isLaunch : Event → Bool
  | .spawn _ _ _ => true
  | .terminalSend _ _ => true
  | _ => false

/-- Truth of an event being a promise settlement. -/
def Event.isSettle : Event → Bool
  | .settleResolve _ _ => true
  | .settleReject _ _ => true
  | _ => false

/-- Truth of an event being a child-process `close`. -/
def Event.isClose : Event → Bool
  | .childClose _ _ => true
  | _ => false

/-- Truth of an event being a promise rejection. -/
def Event.isReject : Event → Bool
  | .settleReject _ _ => true
  | _ => false

/-- Number of process launches attributed to stage `s` in a trace. -/
def launchCount (s : Stage) (t : List Event) : Nat :=
  (t.filter (fun e => e.isLaunch && e.stage == s)).length

/-- Truth of a trace containing a rejection attributed to stage `s`. -/
def hasReject (s : Stage) (t : List Event) : Bool :=
  t.any (fun e => e.isReject && e.stage == s)

/-- Truth of a list of ranks being in non-decreasing order. -/
def nondecreasing : List Nat → Bool
  | [] => true
  | [_] => true
  | a :: b :: rest => a ≤ b && nondecreasing (b :: rest)

/-- Truth of a trace settling its promise only after a child `close` event:
no settlement occurs strictly before the first `close`. -/
def settlesOnlyAfterClose (t : List Event) : Bool :=
  ((t.takeWhile (fun e => !e.isClose)).filter (fun e => e.isSettle)).isEmpty

/-- Host environment of the happy-path end-to-end scenario for source file
`proj/fib.asm` on Linux: all three binaries installed, the directory listing
contains `fib.asm` and `fib.o`, and both children exit 0 in silence. -/
def fibHappyEnv : PipelineEnv :=
  ⟨["bin/name-as.bin", "bin/name-ld", "bin/name-emu.bin"],
   ["fib.asm", "fib.o"], ⟨[], [], 0⟩, ⟨[], [], 0⟩, "linux", "x64"⟩

/-- Host environment identical to `fibHappyEnv` except that the source
directory holds no `.o` file at all, so link-input discovery is empty. -/
def emptyDiscoveryEnv : PipelineEnv :=
  ⟨["bin/name-as.bin", "bin/name-ld", "bin/name-emu.bin"],
   ["fib.asm"], ⟨[], [], 0⟩, ⟨[], [], 0⟩, "linux", "x64"⟩

/-- Host environment identical to `fibHappyEnv` except that the assembler
child writes a diagnostic to stderr (and still exits 0). -/
def fibAsmFailEnv : PipelineEnv :=
  ⟨["bin/name-as.bin", "bin/name-ld", "bin/name-emu.bin"],
   ["fib.asm", "fib.o"], ⟨["syntax error line 3"], [], 0⟩, ⟨[], [], 0⟩,
   "linux", "x64"⟩

end NameExt

namespace NameExt

/-- C7: the binary-name resolver returns exactly `<name>.exe` on Windows,
`<name>_x86_64.app` on macOS x86-64, `<name>_arm64.app` on macOS arm64, and
`<name>.bin` on Linux, and it errors (unsupported platform) exactly on a
platform outside that set. -/
theorem getBinName_platform_table :
    (∀ a n, getBinName "win32" a n = .ok (n ++ ".exe"))
    ∧ (∀ n, getBinName "darwin" "x64" n = .ok (n ++ "_x86_64.app"))
    ∧ (∀ n, getBinName "darwin" "arm64" n = .ok (n ++ "_arm64.app"))
    ∧ (∀ a n, getBinName "linux" a n = .ok (n ++ ".bin"))
    ∧ (∀ p a n, isErr (getBinName p a n)
        = !(p == "win32" || p == "darwin" || p == "linux")) := by
  refine ⟨fun a n => rfl, fun n => ?_, fun n => ?_, fun a n => rfl, ?_⟩
  · show Except.ok (n ++ "_x86_64" ++ ".app") = _
    rw [String.append_assoc]
    rfl
  · show Except.ok (n ++ "_arm64" ++ ".app") = _
    rw [String.append_assoc]
    rfl
  · intro p a n
    unfold getBinName
    by_cases h1 : p = "win32" <;> by_cases h2 : p = "darwin" <;>
      by_cases h3 : p = "linux" <;> simp [h1, h2, h3, isErr]

/-- C10: on the darwin platform the resolver returns `<name>_arm64.app` for
every architecture other than `x64`, and it never errors on darwin. -/
theorem getBinName_darwin_default_arm64 :
    (∀ a n, a ≠ "x64" → getBinName "darwin" a n = .ok (n ++ "_arm64.app"))
    ∧ (∀ a n, isErr (getBinName "darwin" a n) = false) := by
  constructor
  · intro a n ha
    show Except.ok ((if a = "x64" then n ++ "_x86_64" else n ++ "_arm64")
        ++ ".app") = _
    rw [if_neg ha, String.append_assoc]
    rfl
  · intro a n
    unfold getBinName
    by_cases ha : a = "x64" <;> simp [ha, isErr]

/-- Witness for C10's theorem at the concrete non-x64 architecture
`ia32`. -/
theorem getBinName_darwin_default_arm64_witness :
    getBinName "darwin" "ia32" "name-emu" = .ok ("name-emu" ++ "_arm64.app")
    ∧ isErr (getBinName "darwin" "ia32" "name-emu") = false :=
  ⟨getBinName_darwin_default_arm64.1 "ia32" "name-emu" (by decide),
   getBinName_darwin_default_arm64.2 "ia32" "name-emu"⟩

/-- C3 counterexample: with the chained flag set, a failing assembler run
still reveals its output channel, and a succeeding linker run still reveals
its output channel — the claim that a chained stage never reveals is false
on the code. -/
theorem chained_stage_still_reveals :
    ((runAssembler ["bin/name-as.bin"] ⟨["syntax error line 3"], [], 0⟩
        "bin" "proj/fib.asm" "proj/fib.o" true "linux" "x64").snd.contains
      (.channelShow .assembler) = true)
    ∧ ((runLinker ["bin/name-ld"] ⟨[], [], 0⟩ "bin" ["proj/fib.o"]
        "proj/fib" true).snd.contains (.channelShow .linker) = true) :=
  ⟨rfl, rfl⟩

/-- C4: evaluation of the chained pipeline at source file `proj/fib.asm`
(happy path).  Extension replacement and stripping behave as specified, but
the pipeline passes the object path `proj/fib.o` — not the stripped path
`proj/fib` — as the linker's output file, and then runs `proj/fib.o`. -/
theorem pipeline_links_and_runs_object_path :
    NodePath.replaceExt "proj/fib.asm" ".o" = "proj/fib.o"
    ∧ NodePath.replaceExt "proj/fib.asm" "" = "proj/fib"
    ∧ ((assembleRunNoDebug fibHappyEnv "bin" "proj/fib.asm").contains
        (.spawn .linker "bin/name-ld"
          ["--output-filename", "proj/fib.o", "proj/fib.o"]) = true)
    ∧ ((assembleRunNoDebug fibHappyEnv "bin" "proj/fib.asm").contains
        (.terminalSend .runtime "bin/name-emu.bin \"proj/fib.o\"") = true)
    ∧ ((assembleRunNoDebug fibHappyEnv "bin" "proj/fib.asm").contains
        (.terminalSend .runtime "bin/name-emu.bin \"proj/fib\"") = false) :=
  ⟨rfl, rfl, rfl, rfl, rfl⟩

/-- C5 counterexample: the runtime invocation resolves its promise with the
launch message while observing no child-process termination at all — its
trace contains a settlement but no `close` event, so the promise does not
wait for the child to terminate. -/
theorem runtime_resolves_without_child_exit :
    ((runWithoutDebugging ["bin/name-emu.bin"] "bin" "proj/fib"
        "linux" "x64").fst = .resolved "Runner launched in terminal.")
    ∧ (((runWithoutDebugging ["bin/name-emu.bin"] "bin" "proj/fib"
        "linux" "x64").snd.filter (fun e => e.isClose)).isEmpty = true)
    ∧ (((runWithoutDebugging ["bin/name-emu.bin"] "bin" "proj/fib"
        "linux" "x64").snd.filter (fun e => e.isSettle)).isEmpty = false) :=
  ⟨rfl, rfl, rfl⟩

/-- C8 counterexample: on Linux the linker invoker checks the literal path
`bin/name-ld`, not the resolver's `bin/name-ld.bin` — with the resolver-
shaped binary installed, `runLinker` still rejects with not-found at the
unresolved path. -/
theorem linker_path_bypasses_resolver :
    ((runLinker ["bin/name-ld.bin"] ⟨[], [], 0⟩ "bin" ["proj/fib.o"]
        "proj/fib" false).fst
      = .rejected "Linker not found at path: bin/name-ld")
    ∧ getBinName "linux" "x64" "name-ld" = .ok "name-ld.bin"
    ∧ NodePath.join "bin" "name-ld.bin" ≠ "bin/name-ld" := by
  refine ⟨rfl, rfl, ?_⟩
  decide

/-- C9 counterexample: when discovery finds no `.o` file, the chained
pipeline does not fail with a distinct precondition error — it spawns the
linker anyway, with an argv containing no input file. -/
theorem empty_discovery_still_invokes_linker :
    (assembleRunNoDebug emptyDiscoveryEnv "bin" "proj/fib.asm").contains
      (.spawn .linker "bin/name-ld" ["--output-filename", "proj/fib.o"])
      = true :=
  rfl

/-- C1: for an assembler or linker invocation whose binary exists (so a
child is spawned), the promise rejects with the stage's failure message iff
the child wrote at least one stderr chunk; with no stderr activity it
resolves even though the exit code may be anything (the settled outcome is
invariant under the exit code); on failure the accumulated stderr text is
what gets rendered to the output channel. -/
theorem spawned_outcome_failure_iff_stderr
    (fs : List String) (proc : ChildProcess) (dir i o : String) (c : Bool)
    (p a bn : String) (ins : List String) (lo : String)
    (hbn : getBinName p a "name-as" = .ok bn)
    (hfs : fs.contains (NodePath.join dir bn) = true)
    (hld : fs.contains (NodePath.join dir "name-ld") = true) :
    (((runAssembler fs proc dir i o c p a).fst
        = .rejected "Assembly failed. Check output for details.")
      ↔ proc.stderrData ≠ [])
    ∧ (proc.stderrData = [] →
        (runAssembler fs proc dir i o c p a).fst
          = .resolved "Assembly was successful.")
    ∧ (∀ code, (runAssembler fs ⟨proc.stderrData, proc.stdoutData, code⟩
          dir i o c p a).fst = (runAssembler fs proc dir i o c p a).fst)
    ∧ (proc.stderrData ≠ [] →
        (runAssembler fs proc dir i o c p a).snd.contains
          (.channelAppend .assembler (String.join proc.stderrData)) = true)
    ∧ (((runLinker fs proc dir ins lo c).fst
        = .rejected "Linking failed. Check output for details.")
      ↔ proc.stderrData ≠ [])
    ∧ (proc.stderrData = [] →
        (runLinker fs proc dir ins lo c).fst
          = .resolved "Linking was successful.")
    ∧ (∀ code, (runLinker fs ⟨proc.stderrData, proc.stdoutData, code⟩
          dir ins lo c).fst = (runLinker fs proc dir ins lo c).fst)
    ∧ (proc.stderrData ≠ [] →
        (runLinker fs proc dir ins lo c).snd.contains
          (.channelAppend .linker (String.join proc.stderrData)) = true) := by
  have hm : NodePath.join dir bn ∈ fs := by simpa using hfs
  have hl : NodePath.join dir "name-ld" ∈ fs := by simpa using hld
  cases hd : proc.stderrData <;> cases c <;>
    simp [runAssembler, runLinker, hbn, hm, hl, hd]

/-- Witness for C1's theorem: a Linux host with both binaries installed and
a child that writes one stderr chunk yet exits 0; the assembler invocation
rejects with the assembler failure message. -/
theorem spawned_outcome_failure_iff_stderr_witness :
    (runAssembler ["bin/name-as.bin", "bin/name-ld"]
        ⟨["syntax error line 3"], [], 0⟩ "bin" "proj/fib.asm" "proj/fib.o"
        false "linux" "x64").fst
      = .rejected "Assembly failed. Check output for details." :=
  (spawned_outcome_failure_iff_stderr ["bin/name-as.bin", "bin/name-ld"]
      ⟨["syntax error line 3"], [], 0⟩ "bin" "proj/fib.asm" "proj/fib.o"
      false "linux" "x64" "name-as.bin" ["proj/fib.o"] "proj/fib"
      rfl rfl rfl).1.mpr (by decide)

/-- C6: for each of the three invokers, when the computed binary path does
not exist the promise rejects with a not-found error naming that path, and
the trace is exactly the existence check followed by the rejection — in
particular no process is spawned and no terminal command is sent. -/
theorem missing_binary_rejects_without_spawn
    (fs : List String) (proc : ChildProcess) (dir i o lo : String)
    (c : Bool) (p a bnA bnE : String) (ins : List String)
    (hbnA : getBinName p a "name-as" = .ok bnA)
    (hbnE : getBinName p a "name-emu" = .ok bnE)
    (hfsA : fs.contains (NodePath.join dir bnA) = false)
    (hfsL : fs.contains (NodePath.join dir "name-ld") = false)
    (hfsE : fs.contains (NodePath.join dir bnE) = false) :
    (runAssembler fs proc dir i o c p a
      = (.rejected ("Assembler not found at path: " ++ NodePath.join dir bnA),
         [.existsCheck .assembler (NodePath.join dir bnA),
          .settleReject .assembler
            ("Assembler not found at path: " ++ NodePath.join dir bnA)]))
    ∧ (runLinker fs proc dir ins lo c
      = (.rejected ("Linker not found at path: " ++ NodePath.join dir "name-ld"),
         [.existsCheck .linker (NodePath.join dir "name-ld"),
          .settleReject .linker
            ("Linker not found at path: " ++ NodePath.join dir "name-ld")]))
    ∧ (runWithoutDebugging fs dir i p a
      = (.rejected ("Runner not found at path: " ++ NodePath.join dir bnE),
         [.existsCheck .runtime (NodePath.join dir bnE),
          .settleReject .runtime
            ("Runner not found at path: " ++ NodePath.join dir bnE)])) := by
  have hmA : NodePath.join dir bnA ∉ fs := by simpa using hfsA
  have hmL : NodePath.join dir "name-ld" ∉ fs := by simpa using hfsL
  have hmE : NodePath.join dir bnE ∉ fs := by simpa using hfsE
  refine ⟨?_, ?_, ?_⟩ <;>
    simp [runAssembler, runLinker, runWithoutDebugging, hbnA, hbnE,
      hmA, hmL, hmE]

/-- C2: in the chained pipeline the trace's stage ranks never decrease
(assembler events, then linker events, then runtime events, then the
coordinator's final notification — so a later stage never starts before the
previous stage's outcome settled), each stage launches at most once (no
retry), a rejected assembler stage means zero linker and runtime launches, a
rejected linker stage means zero runtime launches, and a launched linker
(resp. runtime) stage implies the assembler (resp. linker) had resolved
successfully. -/
theorem pipeline_sequential_short_circuit (env : PipelineEnv) (bin file : String) :
    (nondecreasing ((assembleRunNoDebug env bin file).map
        (fun e => stageRank e.stage)) = true)
    ∧ launchCount .assembler (assembleRunNoDebug env bin file) ≤ 1
    ∧ launchCount .linker (assembleRunNoDebug env bin file) ≤ 1
    ∧ launchCount .runtime (assembleRunNoDebug env bin file) ≤ 1
    ∧ (hasReject .assembler (assembleRunNoDebug env bin file) = true →
        launchCount .linker (assembleRunNoDebug env bin file) = 0
        ∧ launchCount .runtime (assembleRunNoDebug env bin file) = 0)
    ∧ (hasReject .linker (assembleRunNoDebug env bin file) = true →
        launchCount .runtime (assembleRunNoDebug env bin file) = 0)
    ∧ (1 ≤ launchCount .linker (assembleRunNoDebug env bin file) →
        (assembleRunNoDebug env bin file).contains
          (.settleResolve .assembler "Assembly was successful.") = true)
    ∧ (1 ≤ launchCount .runtime (assembleRunNoDebug env bin file) →
        (assembleRunNoDebug env bin file).contains
          (.settleResolve .linker "Linking was successful.") = true) := by
  unfold assembleRunNoDebug
  rcases hba : getBinName env.platform env.arch "name-as" with e | bnA
  · simp [runAssembler, hba, nondecreasing, launchCount, hasReject,
      Event.isLaunch, Event.isReject, Event.stage, stageRank]
  · cases hca : env.fs.contains (NodePath.join bin bnA)
    · have hma : NodePath.join bin bnA ∉ env.fs := by simpa using hca
      simp [runAssembler, hba, hma, nondecreasing, launchCount, hasReject,
        Event.isLaunch, Event.isReject, Event.stage, stageRank]
    · have hma : NodePath.join bin bnA ∈ env.fs := by simpa using hca
      cases hsa : env.asmProc.stderrData
      · cases hcl : env.fs.contains (NodePath.join bin "name-ld")
        · have hml : NodePath.join bin "name-ld" ∉ env.fs := by simpa using hcl
          simp [runAssembler, runLinker, hba, hma, hsa, hml, nondecreasing,
            launchCount, hasReject, Event.isLaunch, Event.isReject,
            Event.stage, stageRank]
        · have hml : NodePath.join bin "name-ld" ∈ env.fs := by simpa using hcl
          cases hsl : env.ldProc.stderrData
          · rcases hbe : getBinName env.platform env.arch "name-emu" with e2 | bnE
            · simp [runAssembler, runLinker, runWithoutDebugging, hba, hma,
                hsa, hml, hsl, hbe, nondecreasing, launchCount, hasReject,
                Event.isLaunch, Event.isReject, Event.stage, stageRank]
            · cases hce : env.fs.contains (NodePath.join bin bnE)
              · have hme : NodePath.join bin bnE ∉ env.fs := by simpa using hce
                simp [runAssembler, runLinker, runWithoutDebugging, hba, hma,
                  hsa, hml, hsl, hbe, hme, nondecreasing, launchCount,
                  hasReject, Event.isLaunch, Event.isReject, Event.stage,
                  stageRank]
              · have hme : NodePath.join bin bnE ∈ env.fs := by simpa using hce
                simp [runAssembler, runLinker, runWithoutDebugging, hba, hma,
                  hsa, hml, hsl, hbe, hme, nondecreasing, launchCount,
                  hasReject, Event.isLaunch, Event.isReject, Event.stage,
                  stageRank]
          · simp [runAssembler, runLinker, hba, hma, hsa, hml, hsl,
              nondecreasing, launchCount, hasReject, Event.isLaunch,
              Event.isReject, Event.stage, stageRank]
      · simp [runAssembler, hba, hma, hsa, nondecreasing, launchCount,
          hasReject, Event.isLaunch, Event.isReject, Event.stage, stageRank]

/-- Witness for C2's theorem at two concrete environments: the happy-path
run is stage-ordered, and in the run whose assembler child writes to stderr
the linker and runtime are never launched. -/
theorem pipeline_sequential_short_circuit_witness :
    nondecreasing ((assembleRunNoDebug fibHappyEnv "bin" "proj/fib.asm").map
        (fun e => stageRank e.stage)) = true
    ∧ (launchCount .linker (assembleRunNoDebug fibAsmFailEnv "bin" "proj/fib.asm") = 0
       ∧ launchCount .runtime (assembleRunNoDebug fibAsmFailEnv "bin" "proj/fib.asm") = 0) :=
  ⟨(pipeline_sequential_short_circuit fibHappyEnv "bin" "proj/fib.asm").1,
   (pipeline_sequential_short_circuit fibAsmFailEnv "bin"
      "proj/fib.asm").2.2.2.2.1 rfl⟩

/-- Witness for C6's theorem: an empty filesystem on Linux; all three
invocations reject with not-found at their computed paths. -/
theorem missing_binary_rejects_without_spawn_witness :
    (runAssembler [] ⟨[], [], 0⟩ "bin" "proj/fib.asm" "proj/fib.o" false
        "linux" "x64").fst
      = .rejected ("Assembler not found at path: "
          ++ NodePath.join "bin" "name-as.bin") :=
  congrArg Prod.fst
    ((missing_binary_rejects_without_spawn [] ⟨[], [], 0⟩ "bin"
        "proj/fib.asm" "proj/fib.o" "proj/fib" false "linux" "x64"
        "name-as.bin" "name-emu.bin" ["proj/fib.o"] rfl rfl rfl rfl rfl).1)

/-- Amended C3: with the chained flag set, the assembler suppresses its
reveal only on success (it still reveals on failure) and the linker
suppresses its reveal only on failure (it still reveals on success), while
every standalone single-stage command — assemble-only, link-only, run-only
— always reveals its own result. -/
theorem reveal_suppression_by_stage_and_outcome
    (fs : List String) (proc : ChildProcess) (dir i o lo : String)
    (p a bnA bnE : String) (ins : List String)
    (dirEntries : List (String × FileType)) (lfile rfile : String)
    (hbnA : getBinName p a "name-as" = .ok bnA)
    (hbnE : getBinName p a "name-emu" = .ok bnE)
    (hfsA : fs.contains (NodePath.join dir bnA) = true)
    (hfsL : fs.contains (NodePath.join dir "name-ld") = true)
    (hfsE : fs.contains (NodePath.join dir bnE) = true) :
    (proc.stderrData = [] →
      (runAssembler fs proc dir i o true p a).snd.contains
        (.channelShow .assembler) = false)
    ∧ (proc.stderrData ≠ [] →
      (runAssembler fs proc dir i o true p a).snd.contains
        (.channelShow .assembler) = true)
    ∧ (proc.stderrData = [] →
      (runLinker fs proc dir ins lo true).snd.contains
        (.channelShow .linker) = true)
    ∧ (proc.stderrData ≠ [] →
      (runLinker fs proc dir ins lo true).snd.contains
        (.channelShow .linker) = false)
    ∧ ((assembleCurrentFile fs proc dir i p a).contains
        (.channelShow .assembler) = true)
    ∧ ((linkCurrentFile fs dirEntries proc dir lfile).contains
        (.channelShow .linker) = true)
    ∧ ((runNoDebugCommand fs dir rfile p a).contains
        (.terminalShow .runtime) = true) := by
  have hmA : NodePath.join dir bnA ∈ fs := by simpa using hfsA
  have hmL : NodePath.join dir "name-ld" ∈ fs := by simpa using hfsL
  have hmE : NodePath.join dir bnE ∈ fs := by simpa using hfsE
  cases hd : proc.stderrData <;>
    simp [runAssembler, runLinker, runWithoutDebugging, assembleCurrentFile,
      linkCurrentFile, runNoDebugCommand, hbnA, hbnE, hmA, hmL, hmE, hd]

/-- Witness for amended C3 on a Linux host with all binaries installed and
a child that writes one stderr chunk: the chained assembler run reveals on
failure, the chained linker run suppresses on failure, and the standalone
run command reveals. -/
theorem reveal_suppression_by_stage_and_outcome_witness :
    ((runAssembler ["bin/name-as.bin", "bin/name-ld", "bin/name-emu.bin"]
        ⟨["boom"], [], 0⟩ "bin" "proj/fib.asm" "proj/fib.o" true "linux"
        "x64").snd.contains (.channelShow .assembler) = true)
    ∧ ((runLinker ["bin/name-as.bin", "bin/name-ld", "bin/name-emu.bin"]
        ⟨["boom"], [], 0⟩ "bin" ["proj/fib.o"] "proj/fib" true).snd.contains
        (.channelShow .linker) = false)
    ∧ ((runNoDebugCommand ["bin/name-as.bin", "bin/name-ld",
        "bin/name-emu.bin"] "bin" "proj/fib.asm" "linux" "x64").contains
        (.terminalShow .runtime) = true) :=
  ⟨(reveal_suppression_by_stage_and_outcome
      ["bin/name-as.bin", "bin/name-ld", "bin/name-emu.bin"]
      ⟨["boom"], [], 0⟩ "bin" "proj/fib.asm" "proj/fib.o" "proj/fib"
      "linux" "x64" "name-as.bin" "name-emu.bin" ["proj/fib.o"]
      [("fib.o", FileType.file)] "proj/fib.asm" "proj/fib.asm"
      rfl rfl rfl rfl rfl).2.1 (by decide),
   (reveal_suppression_by_stage_and_outcome
      ["bin/name-as.bin", "bin/name-ld", "bin/name-emu.bin"]
      ⟨["boom"], [], 0⟩ "bin" "proj/fib.asm" "proj/fib.o" "proj/fib"
      "linux" "x64" "name-as.bin" "name-emu.bin" ["proj/fib.o"]
      [("fib.o", FileType.file)] "proj/fib.asm" "proj/fib.asm"
      rfl rfl rfl rfl rfl).2.2.2.1 (by decide),
   (reveal_suppression_by_stage_and_outcome
      ["bin/name-as.bin", "bin/name-ld", "bin/name-emu.bin"]
      ⟨["boom"], [], 0⟩ "bin" "proj/fib.asm" "proj/fib.o" "proj/fib"
      "linux" "x64" "name-as.bin" "name-emu.bin" ["proj/fib.o"]
      [("fib.o", FileType.file)] "proj/fib.asm" "proj/fib.asm"
      rfl rfl rfl rfl rfl).2.2.2.2.2.2⟩

/-- Amended C5: the assembler and linker invocations, when their binary
exists so a child is spawned, settle their promise only after the child's
`close` event; the runtime invocation instead resolves with the launch
message while observing no child termination at all. -/
theorem settlement_only_after_child_close
    (fs : List String) (proc : ChildProcess) (dir i o lo : String)
    (c : Bool) (p a bnA bnE : String) (ins : List String)
    (hbnA : getBinName p a "name-as" = .ok bnA)
    (hbnE : getBinName p a "name-emu" = .ok bnE)
    (hfsA : fs.contains (NodePath.join dir bnA) = true)
    (hfsL : fs.contains (NodePath.join dir "name-ld") = true)
    (hfsE : fs.contains (NodePath.join dir bnE) = true) :
    settlesOnlyAfterClose (runAssembler fs proc dir i o c p a).snd = true
    ∧ settlesOnlyAfterClose (runLinker fs proc dir ins lo c).snd = true
    ∧ ((runWithoutDebugging fs dir i p a).fst
        = .resolved "Runner launched in terminal."
       ∧ ((runWithoutDebugging fs dir i p a).snd.filter
            (fun e => e.isClose)).isEmpty = true
       ∧ ((runWithoutDebugging fs dir i p a).snd.filter
            (fun e => e.isSettle)).isEmpty = false) := by
  have hmA : NodePath.join dir bnA ∈ fs := by simpa using hfsA
  have hmL : NodePath.join dir "name-ld" ∈ fs := by simpa using hfsL
  have hmE : NodePath.join dir bnE ∈ fs := by simpa using hfsE
  cases hd : proc.stderrData <;> cases c <;>
    simp [runAssembler, runLinker, runWithoutDebugging, hbnA, hbnE,
      hmA, hmL, hmE, hd, settlesOnlyAfterClose, Event.isClose,
      Event.isSettle, List.takeWhile, List.filter]

/-- Witness for amended C5 on a Linux host with all binaries installed:
the assembler's trace settles only after its child closed. -/
theorem settlement_only_after_child_close_witness :
    settlesOnlyAfterClose (runAssembler
      ["bin/name-as.bin", "bin/name-ld", "bin/name-emu.bin"]
      ⟨["boom"], [], 0⟩ "bin" "proj/fib.asm" "proj/fib.o" false "linux"
      "x64").snd = true :=
  (settlement_only_after_child_close
    ["bin/name-as.bin", "bin/name-ld", "bin/name-emu.bin"]
    ⟨["boom"], [], 0⟩ "bin" "proj/fib.asm" "proj/fib.o" "proj/fib" false
    "linux" "x64" "name-as.bin" "name-emu.bin" ["proj/fib.o"]
    rfl rfl rfl rfl rfl).1

/-- Amended C8: the assembler and runtime invokers compute their binary
paths by joining the resolver's output for their base names to the binary
directory (their first observable action is the existence check at that
path), while the linker invoker joins the literal base name `name-ld`
without applying the resolver. -/
theorem invoker_binary_path_resolution
    (fs : List String) (proc : ChildProcess) (dir i o lo : String)
    (c : Bool) (p a bnA bnE : String) (ins : List String)
    (hbnA : getBinName p a "name-as" = .ok bnA)
    (hbnE : getBinName p a "name-emu" = .ok bnE) :
    ((runAssembler fs proc dir i o c p a).snd.head?
      = some (.existsCheck .assembler (NodePath.join dir bnA)))
    ∧ ((runLinker fs proc dir ins lo c).snd.head?
      = some (.existsCheck .linker (NodePath.join dir "name-ld")))
    ∧ ((runWithoutDebugging fs dir i p a).snd.head?
      = some (.existsCheck .runtime (NodePath.join dir bnE))) := by
  refine ⟨?_, ?_, ?_⟩
  · cases hc : fs.contains (NodePath.join dir bnA)
    · have hm : NodePath.join dir bnA ∉ fs := by simpa using hc
      simp [runAssembler, hbnA, hm]
    · have hm : NodePath.join dir bnA ∈ fs := by simpa using hc
      cases hd : proc.stderrData <;> cases c <;>
        simp [runAssembler, hbnA, hm, hd]
  · cases hc : fs.contains (NodePath.join dir "name-ld")
    · have hm : NodePath.join dir "name-ld" ∉ fs := by simpa using hc
      simp [runLinker, hm]
    · have hm : NodePath.join dir "name-ld" ∈ fs := by simpa using hc
      cases hd : proc.stderrData <;> cases c <;>
        simp [runLinker, hm, hd]
  · cases hc : fs.contains (NodePath.join dir bnE)
    · have hm : NodePath.join dir bnE ∉ fs := by simpa using hc
      simp [runWithoutDebugging, hbnE, hm]
    · have hm : NodePath.join dir bnE ∈ fs := by simpa using hc
      simp [runWithoutDebugging, hbnE, hm]

/-- Witness for amended C8 on Linux: the three invokers' first actions are
existence checks at `bin/name-as.bin`, `bin/name-ld` and
`bin/name-emu.bin` respectively. -/
theorem invoker_binary_path_resolution_witness :
    ((runAssembler [] ⟨[], [], 0⟩ "bin" "proj/fib.asm" "proj/fib.o" false
        "linux" "x64").snd.head?
      = some (.existsCheck .assembler (NodePath.join "bin" "name-as.bin")))
    ∧ ((runLinker [] ⟨[], [], 0⟩ "bin" ["proj/fib.o"] "proj/fib"
        false).snd.head?
      = some (.existsCheck .linker (NodePath.join "bin" "name-ld")))
    ∧ ((runWithoutDebugging [] "bin" "proj/fib" "linux" "x64").snd.head?
      = some (.existsCheck .runtime (NodePath.join "bin" "name-emu.bin"))) :=
  invoker_binary_path_resolution [] ⟨[], [], 0⟩ "bin" "proj/fib.asm"
    "proj/fib.o" "proj/fib" false "linux" "x64" "name-as.bin"
    "name-emu.bin" ["proj/fib.o"] rfl rfl

/-- Amended C9: when link-input discovery yields the empty set, neither the
chained pipeline nor the standalone link command fails with a precondition
error; both invoke the linker with an argv containing no input file. -/
theorem empty_discovery_invokes_linker_without_inputs
    (env : PipelineEnv) (bin file : String) (bnA : String)
    (dirEntries : List (String × FileType)) (fs2 : List String)
    (proc2 : ChildProcess) (dir2 file2 : String)
    (hnone : env.dirListing.filter (fun f => strEndsWith f ".o") = [])
    (hbnA : getBinName env.platform env.arch "name-as" = .ok bnA)
    (hfsA : env.fs.contains (NodePath.join bin bnA) = true)
    (hfsL : env.fs.contains (NodePath.join bin "name-ld") = true)
    (hquiet : env.asmProc.stderrData = [])
    (hnone2 : dirEntries.filter
        (fun e => e.snd == FileType.file && strEndsWith e.fst ".o") = [])
    (hfsL2 : fs2.contains (NodePath.join dir2 "name-ld") = true) :
    ((assembleRunNoDebug env bin file).contains
      (.spawn .linker (NodePath.join bin "name-ld")
        ["--output-filename", NodePath.replaceExt file ".o"]) = true)
    ∧ ((linkCurrentFile fs2 dirEntries proc2 dir2 file2).contains
      (.spawn .linker (NodePath.join dir2 "name-ld")
        ["--output-filename", NodePath.replaceExt file2 ""]) = true) := by
  have hmA : NodePath.join bin bnA ∈ env.fs := by simpa using hfsA
  have hmL : NodePath.join bin "name-ld" ∈ env.fs := by simpa using hfsL
  have hmL2 : NodePath.join dir2 "name-ld" ∈ fs2 := by simpa using hfsL2
  constructor
  · unfold assembleRunNoDebug
    cases hsl : env.ldProc.stderrData
    · rcases hbe : getBinName env.platform env.arch "name-emu" with e2 | bnE
      · simp [runAssembler, runLinker, runWithoutDebugging, hbnA, hbe,
          hmA, hmL, hquiet, hsl, hnone]
      · cases hce : env.fs.contains (NodePath.join bin bnE)
        · have hme : NodePath.join bin bnE ∉ env.fs := by simpa using hce
          simp [runAssembler, runLinker, runWithoutDebugging, hbnA, hbe,
            hmA, hmL, hme, hquiet, hsl, hnone]
        · have hme : NodePath.join bin bnE ∈ env.fs := by simpa using hce
          simp [runAssembler, runLinker, runWithoutDebugging, hbnA, hbe,
            hmA, hmL, hme, hquiet, hsl, hnone]
    · simp [runAssembler, runLinker, hbnA, hmA, hmL, hquiet, hsl, hnone]
  · unfold linkCurrentFile
    cases hsl : proc2.stderrData <;>
      simp [runLinker, hmL2, hsl, hnone2]

/-- Witness for amended C9 at the concrete empty-discovery environment:
both the pipeline and the standalone link command spawn the linker with no
input file in its argv. -/
theorem empty_discovery_invokes_linker_without_inputs_witness :
    ((assembleRunNoDebug emptyDiscoveryEnv "bin" "proj/fib.asm").contains
      (.spawn .linker (NodePath.join "bin" "name-ld")
        ["--output-filename", NodePath.replaceExt "proj/fib.asm" ".o"])
      = true)
    ∧ ((linkCurrentFile ["bin/name-ld"] [("fib.asm", FileType.file)]
        ⟨[], [], 0⟩ "bin" "proj/fib.asm").contains
      (.spawn .linker (NodePath.join "bin" "name-ld")
        ["--output-filename", NodePath.replaceExt "proj/fib.asm" ""])
      = true) :=
  empty_discovery_invokes_linker_without_inputs emptyDiscoveryEnv "bin"
    "proj/fib.asm" "name-as.bin" [("fib.asm", FileType.file)]
    ["bin/name-ld"] ⟨[], [], 0⟩ "bin" "proj/fib.asm"
    rfl rfl rfl rfl rfl rfl rfl

end NameExt
